import Mathlib

/-!
Shallow embedding of the math-slicing arcade game in `app/game.tsx`:
geometry helpers, wave generation, the slice scan, fall bookkeeping and
the per-frame falling-body ticks, together with proofs of the spec's
claims about them.  JS numbers are modelled as `ℚ` (exact arithmetic),
JS ints as `ℤ`, and the `Math.random()` stream as an arbitrary function
`ℕ → ℕ` whose draws are reduced into range with `%`, so every theorem
quantifies over all possible random draws.
-/

namespace MathNinja

/-- Screen-constant used by the source (`FRUIT_COUNT = 3`). -/
def FRUIT_COUNT : ℕ := 3

/-- Gravity constant from the source (`GRAVITY = 0.2`). -/
def GRAVITY : ℚ := 1/5

/-! ## Geometry (`segIntersect`, `segIntersectsRect`) -/

/-- Embedding of `segIntersect`: parametric segment/segment intersection;
a zero determinant (parallel segments) reports no intersection. -/
def segIntersect (x1 y1 x2 y2 x3 y3 x4 y4 : ℚ) : Bool :=
  let d := (x1 - x2) * (y3 - y4) - (y1 - y2) * (x3 - x4)
  if d = 0 then false
  else
    let t := ((x1 - x3) * (y3 - y4) - (y1 - y3) * (x3 - x4)) / d
    let u := -((x1 - x2) * (y1 - y3) - (y1 - y2) * (x1 - x3)) / d
    decide (0 ≤ t ∧ t ≤ 1 ∧ 0 ≤ u ∧ u ≤ 1)

/-- Embedding of `segIntersectsRect`: the segment is tested against each of
the rectangle's four edges in turn. -/
def segIntersectsRect (x1 y1 x2 y2 rx ry rw rh : ℚ) : Bool :=
  let xA := rx; let xB := rx + rw; let yA := ry; let yB := ry + rh
  segIntersect x1 y1 x2 y2 xA yA xB yA ||
  segIntersect x1 y1 x2 y2 xB yA xB yB ||
  segIntersect x1 y1 x2 y2 xB yB xA yB ||
  segIntersect x1 y1 x2 y2 xA yB xA yA

/-- Membership of a point in a closed axis-aligned rectangle. -/
def inRect (px py rx ry rw rh : ℚ) : Prop :=
  rx ≤ px ∧ px ≤ rx + rw ∧ ry ≤ py ∧ py ≤ ry + rh

/-- Membership of a point in the open interior of the rectangle. -/
def strictInRect (px py rx ry rw rh : ℚ) : Prop :=
  rx < px ∧ px < rx + rw ∧ ry < py ∧ py < ry + rh

/-! ## String split (`fullLabel.split("=")`) -/

/-- Helper for `jsStringSplit`: scans the character list, cutting at each
occurrence of `sep`, with `acc` holding the current chunk reversed. -/
def jsSplitAux (sep : Char) : List Char → List Char → List String
  | [], acc => [⟨acc.reverse⟩]
  | c :: cs, acc =>
      if c = sep then ⟨acc.reverse⟩ :: jsSplitAux sep cs []
      else jsSplitAux sep cs (c :: acc)

/-- Embedding of the JS `String.prototype.split` with a one-character
separator, as used by `spawnHalves` (`fullLabel.split("=")`). -/
def jsStringSplit (sep : Char) (s : String) : List String :=
  jsSplitAux sep s.toList []

/-! ## Wave generation (`buildWave`) -/

/-- JS `Array.prototype.indexOf`: index of the first occurrence, `-1` when
the value is absent. -/
def jsIndexOf (l : List ℤ) (v : ℤ) : ℤ :=
  if v ∈ l then (l.indexOf v : ℤ) else -1

/-- The JS destructuring swap `[arr[i], arr[j]] = [arr[j], arr[i]]` on a
list (indices are always in range at the call sites). -/
def listSwap (l : List ℤ) (i j : ℕ) : List ℤ :=
  (l.set i (l.getD j 0)).set j (l.getD i 0)

/-- The Fisher–Yates loop of `buildWave` (`for i = len-1; i > 0; i--`),
recursing on the running index: at step `n+1` the source index is `i = n+1`
and `j` is drawn as `rand k % (i+1)`. -/
def shuffleLoop (rand : ℕ → ℕ) (k : ℕ) (arr : List ℤ) : ℕ → List ℤ
  | 0 => arr
  | n + 1 =>
      let j := rand k % (n + 2)
      shuffleLoop rand (k + 1) (listSwap arr (n + 1) j) n

/-- The candidate-pool loop of `buildWave` (`while (pool.size < FRUIT_COUNT)`),
with the JS `Set` modelled as an insertion-ordered duplicate-free list.
`k` is the index of the next random draw; the loop consumes one draw per
iteration and can fail to terminate for adversarial draws, hence the fuel.
Returns the pool together with the index of the next unconsumed draw. -/
def poolLoop (correct : ℤ) (rand : ℕ → ℕ) : ℕ → ℕ → List ℤ → Option (List ℤ × ℕ)
  | 0, _, _ => none
  | fuel + 1, k, pool =>
      if pool.length ≥ FRUIT_COUNT then some (pool, k)
      else
        let delta : ℤ := (rand k % 5 : ℕ) - 2
        let candidate := correct + delta + (if delta = 0 then 1 else 0)
        let pool' := if candidate ∈ pool then pool else pool ++ [candidate]
        poolLoop correct rand fuel (k + 1) pool'

/-- One round's data as produced by `buildWave`: operands, the shuffled
candidate answers, their rendered labels and the correct slot index. -/
structure Wave where
  a : ℤ
  b : ℤ
  answers : List ℤ
  labels : List String
  correctIdx : ℤ
deriving DecidableEq

/-- Embedding of `buildWave`: draws the operands, fills the candidate pool,
shuffles it and records where the correct answer landed.  `none` models the
(probability-zero under real randomness) case where the pool loop runs out
of fuel. -/
def buildWave (rand : ℕ → ℕ) (fuel : ℕ) : Option Wave :=
  let a : ℤ := (rand 0 % 10 : ℕ)
  let b : ℤ := (rand 1 % 10 : ℕ)
  let correct := a + b
  match poolLoop correct rand fuel 2 [correct] with
  | none => none
  | some (pool, k) =>
      let arr := shuffleLoop rand k pool (pool.length - 1)
      some { a := a, b := b, answers := arr,
             labels := arr.map (fun v => s!"{a} + {b} = {v}"),
             correctIdx := jsIndexOf arr correct }

/-! ## Session state (`GameScreen` component state) -/

/-- One entry of the `halves` state: a sliced-half fragment descriptor
(`HalfItem` in the source). -/
structure HalfItem where
  id : ℤ
  left : Bool
  x : ℚ
  y : ℚ
  leftText : String
  rightText : String
deriving DecidableEq

/-- The session controller's state: the React state and refs of
`GameScreen` that the game logic reads and writes. -/
structure GameState where
  score : ℤ
  lives : ℤ
  gameOver : Bool
  waveId : ℤ
  labels : List String
  answers : List ℤ
  correctIdx : ℤ
  hidden : List Bool
  halves : List HalfItem
  fallenCount : ℕ
deriving DecidableEq

/-- Embedding of `spawnHalves`: split the label at `"="`, trim both parts
and append the two fragment records.  `idBase` stands for the
`Date.now() + random` id draw. -/
def spawnHalves (cx cy : ℚ) (fullLabel : String) (idBase : ℤ)
    (halves : List HalfItem) : List HalfItem :=
  let parts := jsStringSplit '=' fullLabel
  let leftText := (parts.getD 0 "").trim
  let rightText := (parts.getD 1 "").trim
  halves ++
    [⟨idBase, true, cx - 20, cy, leftText, rightText⟩,
     ⟨idBase + 1, false, cx + 20, cy, leftText, rightText⟩]

/-- Embedding of `removeHalf`. -/
def removeHalf (id : ℤ) (s : GameState) : GameState :=
  { s with halves := s.halves.filter (fun h => h.id ≠ id) }

/-- What `fruitRefs.current[i]` plus `ref.rect()` can yield for one slot:
a missing ref (`!ref`), a thrown exception, or a measured rectangle. -/
inductive RectOutcome where
  | exn : RectOutcome
  | noRef : RectOutcome
  | ok : ℚ → ℚ → ℚ → ℚ → RectOutcome
deriving DecidableEq

/-- The state update performed by the body of the slice loop once bubble
`i`'s (padded) rectangle is hit: hide the bubble, spawn the two halves,
then update score or lives depending on whether `i` is the correct slot. -/
def sliceHit (s : GameState) (i : ℕ) (x y w h : ℚ) (idBase : ℤ) : GameState :=
  let s1 := { s with
    hidden := s.hidden.set i true,
    halves := spawnHalves (x + w/2) (y + h/2) (s.labels.getD i "") idBase s.halves }
  if (i : ℤ) = s1.correctIdx then { s1 with score := s1.score + 1 }
  else
    let next := s1.lives - 1
    if next ≤ 0 then { s1 with gameOver := true, lives := 0 }
    else { s1 with lives := next }

/-- The `for` loop of `jsHandleSlice`, scanning slots from index `i` with
`fuel` slots left.  Result: the state after the scan, whether the 200 ms
next-wave timeout was scheduled, and which slot (if any) was sliced. -/
def sliceLoop (x1 y1 x2 y2 : ℚ) (rects : ℕ → RectOutcome) (idBase : ℤ)
    (s : GameState) : ℕ → ℕ → GameState × Bool × Option ℕ
  | _, 0 => (s, false, none)
  | i, fuel + 1 =>
      if s.hidden.getD i false then
        sliceLoop x1 y1 x2 y2 rects idBase s (i + 1) fuel
      else
        match rects i with
        | .exn => sliceLoop x1 y1 x2 y2 rects idBase s (i + 1) fuel
        | .noRef => sliceLoop x1 y1 x2 y2 rects idBase s (i + 1) fuel
        | .ok x y w h =>
            if segIntersectsRect x1 y1 x2 y2 (x - 12) (y - 12) (w + 24) (h + 24) then
              (sliceHit s i x y w h idBase, true, some i)
            else
              sliceLoop x1 y1 x2 y2 rects idBase s (i + 1) fuel

/-- Embedding of `jsHandleSlice`: bail out when the game is over, else scan
the `FRUIT_COUNT` slots in ascending order, stopping at the first hit. -/
def jsHandleSlice (x1 y1 x2 y2 : ℚ) (rects : ℕ → RectOutcome) (idBase : ℤ)
    (s : GameState) : GameState × Bool × Option ℕ :=
  if s.gameOver then (s, false, none)
  else sliceLoop x1 y1 x2 y2 rects idBase s 0 FRUIT_COUNT

/-- Embedding of `handleFruitFall`: bump the fallen counter; once it
reaches `FRUIT_COUNT` with the game still running, lose a life, pinning
lives at 0 and setting game-over when they run out; the 250 ms next-wave
timeout (the returned flag) is scheduled only when lives remain. -/
def handleFruitFall (s : GameState) : GameState × Bool :=
  let s1 := { s with fallenCount := s.fallenCount + 1 }
  if s1.fallenCount ≥ FRUIT_COUNT ∧ s1.gameOver = false then
    let next := s1.lives - 1
    if next ≤ 0 then ({ s1 with gameOver := true, lives := 0 }, false)
    else ({ s1 with lives := next }, true)
  else (s1, false)

/-- The state updates of `buildWave`: install the new wave's answers,
labels and correct index, unhide all slots, clear the fragments and reset
the per-wave fallen counter. -/
def applyBuildWave (s : GameState) (w : Wave) : GameState :=
  { s with
    answers := w.answers, labels := w.labels, correctIdx := w.correctIdx,
    hidden := List.replicate FRUIT_COUNT false, halves := [],
    fallenCount := 0 }

/-- The deferred next-wave callback (`setWaveId(id => id + 1); buildWave()`). -/
def applyAdvance (s : GameState) (w : Wave) : GameState :=
  applyBuildWave { s with waveId := s.waveId + 1 } w

/-- Embedding of `restart`. -/
def restartState (s : GameState) (w : Wave) : GameState :=
  applyBuildWave
    { s with score := 0, lives := 3, gameOver := false, waveId := s.waveId + 1 } w

/-- The component's initial state (`useState` initializers) followed by the
mount-time `buildWave()`. -/
def initState (w : Wave) : GameState :=
  applyBuildWave
    { score := 0, lives := 3, gameOver := false, waveId := 0,
      labels := List.replicate FRUIT_COUNT "",
      answers := List.replicate FRUIT_COUNT 0, correctIdx := 0,
      hidden := List.replicate FRUIT_COUNT false, halves := [],
      fallenCount := 0 } w

/-! ## Per-frame falling-body ticks -/

/-- The per-frame state of one `FruitBubble` (its shared values and the
latched `fell` ref), plus the `hidden` prop it sees. -/
structure BubbleSim where
  y : ℚ
  vy : ℚ
  fell : Bool
  hidden : Bool
deriving DecidableEq

/-- Embedding of `FruitBubble`'s `useFrameCallback` body.  Returns the next
state and whether `onFall` was emitted this tick. -/
def bubbleTick (height : ℚ) (b : BubbleSim) : BubbleSim × Bool :=
  if b.hidden then (b, false)
  else
    let y := b.y + b.vy
    let vy := b.vy + GRAVITY
    let vy := if y < height * (1/10) ∧ vy < 0 then 0 else vy
    if b.fell = false ∧ y > height + 120 then
      ({ y := y, vy := vy, fell := true, hidden := b.hidden }, true)
    else
      ({ y := y, vy := vy, fell := b.fell, hidden := b.hidden }, false)

/-- Number of `onFall` emissions over `n` consecutive ticks of one bubble. -/
def bubbleRun (height : ℚ) (b : BubbleSim) : ℕ → ℕ
  | 0 => 0
  | n + 1 =>
      let r := bubbleTick height b
      (if r.2 then 1 else 0) + bubbleRun height r.1 n

/-- The per-frame state of one `SlicedHalf` fragment. -/
structure HalfSim where
  x : ℚ
  y : ℚ
  vx : ℚ
  vy : ℚ
  rot : ℚ
deriving DecidableEq

/-- Embedding of `SlicedHalf`'s `useFrameCallback` body.  Returns the next
state and whether `onDone` was emitted this tick.  Note the source keeps no
latch: the test `y > height + 200` is re-evaluated every tick. -/
def halfTick (height : ℚ) (h : HalfSim) : HalfSim × Bool :=
  let x := h.x + h.vx
  let y := h.y + h.vy
  let vy := h.vy + GRAVITY
  let rot := h.rot + 2
  (⟨x, y, h.vx, vy, rot⟩, decide (y > height + 200))

/-! ## Reachable session states -/

/-- One externally-triggered transition of the session controller. -/
inductive Step : GameState → GameState → Prop where
  | slice (x1 y1 x2 y2 : ℚ) (rects : ℕ → RectOutcome) (idBase : ℤ)
      (s : GameState) : Step s (jsHandleSlice x1 y1 x2 y2 rects idBase s).1
  | fall (s : GameState) : Step s (handleFruitFall s).1
  | advance (s : GameState) (w : Wave) : Step s (applyAdvance s w)
  | restartStep (s : GameState) (w : Wave) : Step s (restartState s w)
  | halfDone (s : GameState) (id : ℤ) : Step s (removeHalf id s)

/-- States reachable from a freshly mounted game screen. -/
inductive Reachable : GameState → Prop where
  | init (w : Wave) : Reachable (initState w)
  | step {s s' : GameState} : Reachable s → Step s s' → Reachable s'

/-! ## Slice-scan characterization -/

/-- Slot `j` does not register a hit for the given segment: it is hidden,
its ref is missing, its rectangle lookup throws, or its padded rectangle
misses the segment. -/
def slotMiss (x1 y1 x2 y2 : ℚ) (rects : ℕ → RectOutcome) (s : GameState)
    (j : ℕ) : Prop :=
  s.hidden.getD j false = true ∨ rects j = .exn ∨ rects j = .noRef ∨
    ∃ x y w h, rects j = .ok x y w h ∧
      segIntersectsRect x1 y1 x2 y2 (x - 12) (y - 12) (w + 24) (h + 24) = false

/-- A concrete mid-game state used by the witnesses below. -/
def sampleState : GameState :=
  { score := 2, lives := 3, gameOver := false, waveId := 4,
    labels := ["3 + 4 = 6", "3 + 4 = 7", "3 + 4 = 5"],
    answers := [6, 7, 5], correctIdx := 1,
    hidden := [false, false, false], halves := [], fallenCount := 0 }

/-- A concrete rectangle outcome map: every slot measures the same
rectangle at `(100, 0)` of the source's `FRUIT_W × FRUIT_H` size. -/
def sampleRects : ℕ → RectOutcome := fun _ => RectOutcome.ok 100 0 140 84

/-- A concrete wave used by the witnesses below. -/
def sampleWave : Wave :=
  { a := 3, b := 4, answers := [6, 7, 5],
    labels := ["3 + 4 = 6", "3 + 4 = 7", "3 + 4 = 5"], correctIdx := 1 }

/-- A rectangle map whose slot 0 throws while the other slots measure. -/
def exnRects : ℕ → RectOutcome :=
  fun j => if j = 0 then RectOutcome.exn else RectOutcome.ok 100 0 140 84

/-- Rect map whose slot 0 has no mounted ref while later slots measure. -/
def missRects : ℕ → RectOutcome :=
  fun j => if j = 0 then RectOutcome.noRef else RectOutcome.ok 100 0 140 84

/-- The concrete wave produced by `buildWave` from the identity stream. -/
def sampleBuiltWave : Wave :=
  { a := 0, b := 1, answers := [2, 1, 3],
    labels := ["0 + 1 = 2", "0 + 1 = 1", "0 + 1 = 3"], correctIdx := 1 }

/-- The safety invariant of the session controller. -/
def SessionInv (s : GameState) : Prop :=
  0 ≤ s.score ∧ 0 ≤ s.lives ∧ (s.lives = 0 → s.gameOver = true)

/-- Unfolding of one iteration of the slice loop. -/
theorem sliceLoop_succ (x1 y1 x2 y2 : ℚ) (rects : ℕ → RectOutcome)
    (idBase : ℤ) (s : GameState) (i fuel : ℕ) :
    sliceLoop x1 y1 x2 y2 rects idBase s i (fuel + 1) =
      if s.hidden.getD i false then
        sliceLoop x1 y1 x2 y2 rects idBase s (i + 1) fuel
      else
        match rects i with
        | .exn => sliceLoop x1 y1 x2 y2 rects idBase s (i + 1) fuel
        | .noRef => sliceLoop x1 y1 x2 y2 rects idBase s (i + 1) fuel
        | .ok x y w h =>
            if segIntersectsRect x1 y1 x2 y2 (x - 12) (y - 12) (w + 24) (h + 24) then
              (sliceHit s i x y w h idBase, true, some i)
            else
              sliceLoop x1 y1 x2 y2 rects idBase s (i + 1) fuel := rfl

/-- Complete case analysis of the slice loop: either every scanned slot
misses and the state is untouched, or the scan stops at the first hitting
slot `c`, applies `sliceHit` there and schedules the next-wave timeout. -/
theorem sliceLoop_spec (x1 y1 x2 y2 : ℚ) (rects : ℕ → RectOutcome)
    (idBase : ℤ) (s : GameState) (fuel : ℕ) : ∀ (i : ℕ),
    (sliceLoop x1 y1 x2 y2 rects idBase s i fuel = (s, false, none) ∧
      ∀ j, i ≤ j → j < i + fuel → slotMiss x1 y1 x2 y2 rects s j) ∨
    (∃ c x y w h, i ≤ c ∧ c < i + fuel ∧
      s.hidden.getD c false = false ∧ rects c = RectOutcome.ok x y w h ∧
      segIntersectsRect x1 y1 x2 y2 (x - 12) (y - 12) (w + 24) (h + 24) = true ∧
      (∀ j, i ≤ j → j < c → slotMiss x1 y1 x2 y2 rects s j) ∧
      sliceLoop x1 y1 x2 y2 rects idBase s i fuel =
        (sliceHit s c x y w h idBase, true, some c)) := by
  induction fuel with
  | zero =>
      intro i
      exact Or.inl ⟨rfl, fun j h1 h2 => absurd h2 (by omega)⟩
  | succ n ih =>
      intro i
      have cont : sliceLoop x1 y1 x2 y2 rects idBase s i (n + 1) =
            sliceLoop x1 y1 x2 y2 rects idBase s (i + 1) n →
          slotMiss x1 y1 x2 y2 rects s i →
          (sliceLoop x1 y1 x2 y2 rects idBase s i (n + 1) = (s, false, none) ∧
            ∀ j, i ≤ j → j < i + (n + 1) → slotMiss x1 y1 x2 y2 rects s j) ∨
          (∃ c x y w h, i ≤ c ∧ c < i + (n + 1) ∧
            s.hidden.getD c false = false ∧ rects c = RectOutcome.ok x y w h ∧
            segIntersectsRect x1 y1 x2 y2 (x - 12) (y - 12) (w + 24) (h + 24) = true ∧
            (∀ j, i ≤ j → j < c → slotMiss x1 y1 x2 y2 rects s j) ∧
            sliceLoop x1 y1 x2 y2 rects idBase s i (n + 1) =
              (sliceHit s c x y w h idBase, true, some c)) := by
        intro hrw hmi
        rcases ih (i + 1) with ⟨heq, hmiss⟩ |
          ⟨c, x, y, w, h, hic, hcf, hch, hcr, hcint, hcmiss, heq⟩
        · refine Or.inl ⟨hrw.trans heq, fun j h1 h2 => ?_⟩
          rcases Nat.eq_or_lt_of_le h1 with rfl | h1'
          · exact hmi
          · exact hmiss j h1' (by omega)
        · refine Or.inr ⟨c, x, y, w, h, by omega, by omega, hch, hcr, hcint,
            fun j h1 h2 => ?_, hrw.trans heq⟩
          rcases Nat.eq_or_lt_of_le h1 with rfl | h1'
          · exact hmi
          · exact hcmiss j h1' h2
      by_cases hh : s.hidden.getD i false = true
      · refine cont ?_ (Or.inl hh)
        rw [sliceLoop_succ, if_pos hh]
      · have hh' : s.hidden.getD i false = false := by
          simpa using hh
        rcases hr : rects i with _ | _ | ⟨x, y, w, h⟩
        · refine cont ?_ (Or.inr (Or.inl hr))
          rw [sliceLoop_succ, if_neg hh, hr]
        · refine cont ?_ (Or.inr (Or.inr (Or.inl hr)))
          rw [sliceLoop_succ, if_neg hh, hr]
        · by_cases hi :
              segIntersectsRect x1 y1 x2 y2 (x - 12) (y - 12) (w + 24) (h + 24) = true
          · refine Or.inr ⟨i, x, y, w, h, le_refl i, by omega, hh', hr, hi,
              fun j h1 h2 => absurd h2 (by omega), ?_⟩
            rw [sliceLoop_succ, if_neg hh, hr]
            exact if_pos hi
          · have hi' :
                segIntersectsRect x1 y1 x2 y2 (x - 12) (y - 12) (w + 24) (h + 24) = false := by
              simpa using hi
            refine cont ?_ (Or.inr (Or.inr (Or.inr ⟨x, y, w, h, hr, hi'⟩)))
            rw [sliceLoop_succ, if_neg hh, hr]
            exact if_neg hi

/-! ## Small helper lemmas -/

/-- Splitting a separator-free chunk yields the single chunk. -/
theorem jsSplitAux_no_sep (sep : Char) (l : List Char) (h : sep ∉ l) :
    ∀ acc, jsSplitAux sep l acc = [⟨acc.reverse ++ l⟩] := by
  induction l with
  | nil => intro acc; simp [jsSplitAux]
  | cons c cs ih =>
      intro acc
      have hc : ¬(c = sep) := fun hcs => h (hcs ▸ List.mem_cons_self c cs)
      have hcs : sep ∉ cs := fun hm => h (List.mem_cons_of_mem c hm)
      rw [jsSplitAux, if_neg hc, ih hcs]
      simp

/-- Splitting at the first separator occurrence cuts off the first chunk. -/
theorem jsSplitAux_sep (sep : Char) (l r : List Char) (h : sep ∉ l) :
    ∀ acc, jsSplitAux sep (l ++ sep :: r) acc =
      ⟨acc.reverse ++ l⟩ :: jsSplitAux sep r [] := by
  induction l with
  | nil => intro acc; simp [jsSplitAux]
  | cons c cs ih =>
      intro acc
      have hc : ¬(c = sep) := fun hcs => h (hcs ▸ List.mem_cons_self c cs)
      have hcs : sep ∉ cs := fun hm => h (List.mem_cons_of_mem c hm)
      rw [List.cons_append, jsSplitAux, if_neg hc, ih hcs]
      simp

/-- A string with exactly one `'='` splits into its two surrounding chunks. -/
theorem jsStringSplit_pair (lc rc : List Char) (s : String)
    (hs : s.toList = lc ++ '=' :: rc) (hl : '=' ∉ lc) (hr : '=' ∉ rc) :
    jsStringSplit '=' s = [⟨lc⟩, ⟨rc⟩] := by
  unfold jsStringSplit
  rw [hs, jsSplitAux_sep _ _ _ hl, jsSplitAux_no_sep _ _ hr]
  simp

/-- Reading `getD` after setting the same (in-range) index. -/
theorem getD_set_self (l : List Bool) (c : ℕ) (h : c < l.length) :
    (l.set c true).getD c false = true := by
  rw [List.getD_eq_getElem?_getD, List.getElem?_set_self h]
  rfl

/-! ## Claim theorems -/

/-- Claim C10: a fall event that leaves the per-wave fallen counter below
the slot count only bumps that counter — score, lives, game-over flag, the
hidden flags, wave labels/answers/correct index and fragments are all
unchanged, and no next wave is scheduled. -/
theorem fall_below_count (s : GameState) (h : s.fallenCount + 1 < FRUIT_COUNT) :
    handleFruitFall s = ({ s with fallenCount := s.fallenCount + 1 }, false) := by
  unfold handleFruitFall
  refine if_neg (fun hc => ?_)
  have h1 := hc.1
  dsimp only at h1
  simp only [FRUIT_COUNT] at h1 h
  omega

/-- Witness for C10 at the concrete `sampleState`. -/
theorem fall_below_count_witness :
    sampleState.fallenCount + 1 < FRUIT_COUNT ∧
      handleFruitFall sampleState =
        ({ sampleState with fallenCount := sampleState.fallenCount + 1 }, false) :=
  ⟨by decide, fall_below_count sampleState (by decide)⟩

/-- Claim C4: three unsliced falls in one wave from a playing state with 3
lives leave 2 lives, schedule the next wave, and the subsequently built
wave starts with the fallen counter reset to 0 and all bubbles unhidden. -/
theorem three_falls_new_wave (s : GameState) (w : Wave)
    (hfc : s.fallenCount = 0) (hl : s.lives = 3) (hg : s.gameOver = false) :
    ((handleFruitFall ((handleFruitFall ((handleFruitFall s).1)).1)).1.lives = 2 ∧
     (handleFruitFall ((handleFruitFall ((handleFruitFall s).1)).1)).1.gameOver = false ∧
     (handleFruitFall ((handleFruitFall ((handleFruitFall s).1)).1)).2 = true) ∧
    (applyAdvance (handleFruitFall ((handleFruitFall ((handleFruitFall s).1)).1)).1 w).fallenCount = 0 ∧
    (applyAdvance (handleFruitFall ((handleFruitFall ((handleFruitFall s).1)).1)).1 w).hidden =
      List.replicate FRUIT_COUNT false := by
  obtain ⟨sc, lv, go, wid, lb, ans, ci, hid, hv, fc⟩ := s
  simp only at hfc hl hg
  subst hfc hl hg
  simp [handleFruitFall, applyAdvance, applyBuildWave, FRUIT_COUNT]

/-- Witness for C4 at the concrete `sampleState`. -/
theorem three_falls_new_wave_witness :
    sampleState.fallenCount = 0 ∧ sampleState.lives = 3 ∧ sampleState.gameOver = false ∧
    (((handleFruitFall ((handleFruitFall ((handleFruitFall sampleState).1)).1)).1.lives = 2 ∧
      (handleFruitFall ((handleFruitFall ((handleFruitFall sampleState).1)).1)).1.gameOver = false ∧
      (handleFruitFall ((handleFruitFall ((handleFruitFall sampleState).1)).1)).2 = true) ∧
     (applyAdvance (handleFruitFall ((handleFruitFall ((handleFruitFall sampleState).1)).1)).1
        sampleWave).fallenCount = 0 ∧
     (applyAdvance (handleFruitFall ((handleFruitFall ((handleFruitFall sampleState).1)).1)).1
        sampleWave).hidden = List.replicate FRUIT_COUNT false) :=
  ⟨rfl, rfl, rfl, three_falls_new_wave sampleState sampleWave rfl rfl rfl⟩

/-- Both branches of `sliceHit` hide exactly slot `i`. -/
theorem sliceHit_hidden (s : GameState) (i : ℕ) (x y w h : ℚ) (idBase : ℤ) :
    (sliceHit s i x y w h idBase).hidden = s.hidden.set i true := by
  unfold sliceHit
  dsimp only
  split
  · rfl
  · split <;> rfl

/-- Claim C7: the slice scan honors at most one slice per gesture-update
segment.  When nothing is hit the state is untouched; when slot `c` is
reported, only slot `c`'s hidden flag is set (all other slots keep their
flags), and every slot below `c` missed — so a segment geometrically
crossing two bubbles hides only the lowest-index one. -/
theorem slice_at_most_one (x1 y1 x2 y2 : ℚ) (rects : ℕ → RectOutcome)
    (idBase : ℤ) (s : GameState) :
    ((jsHandleSlice x1 y1 x2 y2 rects idBase s).2.2 = none →
      (jsHandleSlice x1 y1 x2 y2 rects idBase s).1 = s) ∧
    ∀ c, (jsHandleSlice x1 y1 x2 y2 rects idBase s).2.2 = some c →
      (jsHandleSlice x1 y1 x2 y2 rects idBase s).1.hidden = s.hidden.set c true ∧
      ∀ j, j < c → slotMiss x1 y1 x2 y2 rects s j := by
  unfold jsHandleSlice
  by_cases hg : s.gameOver = true
  · rw [if_pos hg]
    exact ⟨fun _ => rfl, fun c hc => absurd hc (by simp)⟩
  · rw [if_neg hg]
    rcases sliceLoop_spec x1 y1 x2 y2 rects idBase s FRUIT_COUNT 0 with
      ⟨heq, _⟩ | ⟨c, x, y, w, h, _, _, _, _, _, hcmiss, heq⟩
    · rw [heq]
      exact ⟨fun _ => rfl, fun c hc => absurd hc (by simp)⟩
    · rw [heq]
      refine ⟨fun hnone => absurd hnone (by simp), fun c' hc' => ?_⟩
      have hcc : c = c' := by simpa using hc'
      subst hcc
      exact ⟨sliceHit_hidden s c _ _ _ _ idBase,
        fun j hj => hcmiss j (Nat.zero_le j) hj⟩

/-- Witness for C7 at a concrete segment, rectangle map and state. -/
theorem slice_at_most_one_witness :
    (((jsHandleSlice 150 (-50) 150 50 sampleRects 9 sampleState).2.2 = none →
      (jsHandleSlice 150 (-50) 150 50 sampleRects 9 sampleState).1 = sampleState) ∧
    ∀ c, (jsHandleSlice 150 (-50) 150 50 sampleRects 9 sampleState).2.2 = some c →
      (jsHandleSlice 150 (-50) 150 50 sampleRects 9 sampleState).1.hidden =
        sampleState.hidden.set c true ∧
      ∀ j, j < c → slotMiss 150 (-50) 150 50 sampleRects sampleState j) :=
  slice_at_most_one 150 (-50) 150 50 sampleRects 9 sampleState

/-- Auxiliary for C9: two rectangle maps that differ only by turning
thrown lookups into benign "ref not mounted" misses drive the scan to the
very same result. -/
theorem sliceLoop_congr_miss (x1 y1 x2 y2 : ℚ) (rects rects' : ℕ → RectOutcome)
    (idBase : ℤ) (s : GameState)
    (hre : ∀ j, rects' j = rects j ∨
      (rects j = RectOutcome.exn ∧ rects' j = RectOutcome.noRef))
    (fuel : ℕ) : ∀ i0,
    sliceLoop x1 y1 x2 y2 rects idBase s i0 fuel =
      sliceLoop x1 y1 x2 y2 rects' idBase s i0 fuel := by
  induction fuel with
  | zero => intro i0; rfl
  | succ n ih =>
      intro i0
      rw [sliceLoop_succ, sliceLoop_succ]
      by_cases hh : s.hidden.getD i0 false = true
      · rw [if_pos hh, if_pos hh, ih]
      · rw [if_neg hh, if_neg hh]
        rcases hre i0 with he | ⟨he1, he2⟩
        · rw [he]
          rcases hr : rects i0 with _ | _ | ⟨x, y, w, h⟩
          · exact ih (i0 + 1)
          · exact ih (i0 + 1)
          · exact if_congr Iff.rfl rfl (ih (i0 + 1))
        · rw [he1, he2]
          exact ih (i0 + 1)

/-- Claim C9: an exception raised while measuring one bubble's rectangle is
caught: the whole slice call behaves exactly as if that bubble had simply
reported no hit, so the remaining slots are still scanned and no state
change is attributed to the throwing slot. -/
theorem slice_exn_is_miss (x1 y1 x2 y2 : ℚ) (rects : ℕ → RectOutcome)
    (idBase : ℤ) (s : GameState) (i : ℕ) (hexn : rects i = RectOutcome.exn) :
    jsHandleSlice x1 y1 x2 y2 rects idBase s =
      jsHandleSlice x1 y1 x2 y2
        (fun j => if j = i then RectOutcome.noRef else rects j) idBase s := by
  unfold jsHandleSlice
  by_cases hg : s.gameOver = true
  · rw [if_pos hg, if_pos hg]
  · rw [if_neg hg, if_neg hg]
    refine sliceLoop_congr_miss x1 y1 x2 y2 rects _ idBase s (fun j => ?_) FRUIT_COUNT 0
    by_cases hj : j = i
    · subst hj
      exact Or.inr ⟨hexn, by simp⟩
    · exact Or.inl (by simp [hj])

/-- Witness for C9: with slot 0 throwing, the scan equals the one where
slot 0 merely misses — and (checked by evaluation) it still slices slot 1. -/
theorem slice_exn_is_miss_witness :
    exnRects 0 = RectOutcome.exn ∧
    jsHandleSlice 150 (-50) 150 50 exnRects 9 sampleState =
      jsHandleSlice 150 (-50) 150 50
        (fun j => if j = 0 then RectOutcome.noRef else exnRects j) 9 sampleState ∧
    (jsHandleSlice 150 (-50) 150 50 exnRects 9 sampleState).2.2 = some 1 :=
  ⟨rfl, slice_exn_is_miss 150 (-50) 150 50 exnRects 9 sampleState 0 rfl,
    by norm_num [jsHandleSlice, FRUIT_COUNT, sampleState, exnRects, sliceHit,
      segIntersectsRect, segIntersect, spawnHalves, sliceLoop]⟩

/-- The `sliceHit` update on the correct slot: one more point, the rest is the
common hide-and-spawn update. -/
theorem sliceHit_correct (s : GameState) (i : ℕ) (x y w h : ℚ) (idBase : ℤ)
    (hc : (i : ℤ) = s.correctIdx) :
    sliceHit s i x y w h idBase =
      { s with hidden := s.hidden.set i true,
               halves := spawnHalves (x + w/2) (y + h/2) (s.labels.getD i "")
                 idBase s.halves,
               score := s.score + 1 } := by
  unfold sliceHit
  dsimp only
  rw [if_pos hc]

/-- The `sliceHit` update on an incorrect slot with at most one life left: lives are
pinned at 0 and the game-over flag is raised. -/
theorem sliceHit_incorrect_last (s : GameState) (i : ℕ) (x y w h : ℚ)
    (idBase : ℤ) (hc : ¬((i : ℤ) = s.correctIdx)) (hl : s.lives ≤ 1) :
    sliceHit s i x y w h idBase =
      { s with hidden := s.hidden.set i true,
               halves := spawnHalves (x + w/2) (y + h/2) (s.labels.getD i "")
                 idBase s.halves,
               gameOver := true, lives := 0 } := by
  unfold sliceHit
  dsimp only
  rw [if_neg hc, if_pos (by omega : s.lives - 1 ≤ 0)]

/-- The slice call only reports a slot when the game is not over. -/
theorem jsHandleSlice_some_not_over (x1 y1 x2 y2 : ℚ) (rects : ℕ → RectOutcome)
    (idBase : ℤ) (s : GameState) (c : ℕ)
    (hres : (jsHandleSlice x1 y1 x2 y2 rects idBase s).2.2 = some c) :
    s.gameOver = false := by
  by_cases hg : s.gameOver = true
  · rw [jsHandleSlice, if_pos hg] at hres
    exact absurd hres (by simp)
  · simpa using hg

/-- When the slice call reports slot `c`, the result is exactly the
`sliceHit` update at `c` with the timeout scheduled. -/
theorem jsHandleSlice_some_spec (x1 y1 x2 y2 : ℚ) (rects : ℕ → RectOutcome)
    (idBase : ℤ) (s : GameState) (c : ℕ)
    (hres : (jsHandleSlice x1 y1 x2 y2 rects idBase s).2.2 = some c) :
    c < FRUIT_COUNT ∧ s.hidden.getD c false = false ∧
    ∃ x y w h, rects c = RectOutcome.ok x y w h ∧
      jsHandleSlice x1 y1 x2 y2 rects idBase s =
        (sliceHit s c x y w h idBase, true, some c) := by
  have hg : s.gameOver = false :=
    jsHandleSlice_some_not_over x1 y1 x2 y2 rects idBase s c hres
  have hg' : ¬(s.gameOver = true) := by simp [hg]
  rw [jsHandleSlice, if_neg hg'] at hres ⊢
  rcases sliceLoop_spec x1 y1 x2 y2 rects idBase s FRUIT_COUNT 0 with
    ⟨heq, _⟩ | ⟨c', x, y, w, h, _, hcf, hch, hcr, _, _, heq⟩
  · rw [heq] at hres
    exact absurd hres (by simp)
  · rw [heq] at hres
    have hcc : c' = c := by simpa using hres
    subst hcc
    exact ⟨by omega, hch, x, y, w, h, hcr, heq⟩

/-- Claim C2: slicing the non-hidden correct-answer bubble while playing
adds exactly one point, leaves lives untouched, hides that bubble and
appends exactly two fragments whose trimmed texts are the parts of the
bubble's label to the left and right of the `'='` character. -/
theorem slice_correct_bubble (x1 y1 x2 y2 : ℚ) (rects : ℕ → RectOutcome)
    (idBase : ℤ) (s : GameState) (c : ℕ) (lc rc : List Char)
    (hlen : s.hidden.length = FRUIT_COUNT)
    (hres : (jsHandleSlice x1 y1 x2 y2 rects idBase s).2.2 = some c)
    (hcorr : (c : ℤ) = s.correctIdx)
    (hlabel : (s.labels.getD c "").toList = lc ++ '=' :: rc)
    (hlc : '=' ∉ lc) (hrc : '=' ∉ rc) :
    (jsHandleSlice x1 y1 x2 y2 rects idBase s).1.score = s.score + 1 ∧
    (jsHandleSlice x1 y1 x2 y2 rects idBase s).1.lives = s.lives ∧
    (jsHandleSlice x1 y1 x2 y2 rects idBase s).1.gameOver = s.gameOver ∧
    (jsHandleSlice x1 y1 x2 y2 rects idBase s).1.hidden.getD c false = true ∧
    ∃ cx cy : ℚ,
      (jsHandleSlice x1 y1 x2 y2 rects idBase s).1.halves = s.halves ++
        [⟨idBase, true, cx - 20, cy, (String.mk lc).trim, (String.mk rc).trim⟩,
         ⟨idBase + 1, false, cx + 20, cy, (String.mk lc).trim,
           (String.mk rc).trim⟩] := by
  obtain ⟨hcF, hch, x, y, w, h, hcr, heq⟩ :=
    jsHandleSlice_some_spec x1 y1 x2 y2 rects idBase s c hres
  rw [heq, sliceHit_correct s c x y w h idBase hcorr]
  refine ⟨rfl, rfl, rfl, getD_set_self s.hidden c (by omega), x + w/2, y + h/2, ?_⟩
  unfold spawnHalves
  rw [jsStringSplit_pair lc rc _ hlabel hlc hrc]
  rfl

/-- Witness for C2: in `sampleState` the correct slot is 1; with slot 0
unmounted, a vertical segment through the measured rectangle slices the
correct bubble. -/
theorem slice_correct_bubble_witness :
    (jsHandleSlice 150 (-50) 150 50 missRects 9 sampleState).2.2 = some 1 ∧
    ((1 : ℕ) : ℤ) = sampleState.correctIdx ∧
    ((jsHandleSlice 150 (-50) 150 50 missRects 9 sampleState).1.score =
        sampleState.score + 1 ∧
      (jsHandleSlice 150 (-50) 150 50 missRects 9 sampleState).1.lives =
        sampleState.lives ∧
      (jsHandleSlice 150 (-50) 150 50 missRects 9 sampleState).1.gameOver =
        sampleState.gameOver ∧
      (jsHandleSlice 150 (-50) 150 50 missRects 9 sampleState).1.hidden.getD 1 false =
        true ∧
      ∃ cx cy : ℚ,
        (jsHandleSlice 150 (-50) 150 50 missRects 9 sampleState).1.halves =
          sampleState.halves ++
          [⟨9, true, cx - 20, cy, (String.mk "3 + 4 ".toList).trim,
             (String.mk " 7".toList).trim⟩,
           ⟨9 + 1, false, cx + 20, cy, (String.mk "3 + 4 ".toList).trim,
             (String.mk " 7".toList).trim⟩]) :=
  have hres : (jsHandleSlice 150 (-50) 150 50 missRects 9 sampleState).2.2 = some 1 := by
    norm_num [jsHandleSlice, FRUIT_COUNT, sampleState, missRects, sliceHit,
      segIntersectsRect, segIntersect, spawnHalves, sliceLoop]
  ⟨hres, rfl,
    slice_correct_bubble 150 (-50) 150 50 missRects 9 sampleState 1
      "3 + 4 ".toList " 7".toList rfl hres rfl rfl (by decide) (by decide)⟩

/-- Claim C3 (amended): slicing a non-hidden incorrect bubble with one
life left pins lives at 0 and raises game-over — but the 200 ms next-wave
timeout is still scheduled (the source schedules it unconditionally after
any slice; contrast `handleFruitFall`, which suppresses it on game-over). -/
theorem slice_incorrect_last_life (x1 y1 x2 y2 : ℚ) (rects : ℕ → RectOutcome)
    (idBase : ℤ) (s : GameState) (c : ℕ)
    (hres : (jsHandleSlice x1 y1 x2 y2 rects idBase s).2.2 = some c)
    (hcorr : ¬((c : ℤ) = s.correctIdx))
    (hlives : s.lives = 1) :
    (jsHandleSlice x1 y1 x2 y2 rects idBase s).1.lives = 0 ∧
    (jsHandleSlice x1 y1 x2 y2 rects idBase s).1.gameOver = true ∧
    (jsHandleSlice x1 y1 x2 y2 rects idBase s).2.1 = true := by
  obtain ⟨hcF, hch, x, y, w, h, hcr, heq⟩ :=
    jsHandleSlice_some_spec x1 y1 x2 y2 rects idBase s c hres
  rw [heq, sliceHit_incorrect_last s c x y w h idBase hcorr (by omega)]
  exact ⟨rfl, rfl, rfl⟩

/-- Witness for the amended C3 at a concrete incorrect slice. -/
theorem slice_incorrect_last_life_witness :
    (jsHandleSlice 150 (-50) 150 50 sampleRects 9
        { sampleState with lives := 1 }).2.2 = some 0 ∧
    ¬(((0 : ℕ) : ℤ) = ({ sampleState with lives := 1 } : GameState).correctIdx) ∧
    ({ sampleState with lives := 1 } : GameState).lives = 1 ∧
    ((jsHandleSlice 150 (-50) 150 50 sampleRects 9
        { sampleState with lives := 1 }).1.lives = 0 ∧
      (jsHandleSlice 150 (-50) 150 50 sampleRects 9
        { sampleState with lives := 1 }).1.gameOver = true ∧
      (jsHandleSlice 150 (-50) 150 50 sampleRects 9
        { sampleState with lives := 1 }).2.1 = true) :=
  have hres : (jsHandleSlice 150 (-50) 150 50 sampleRects 9
      { sampleState with lives := 1 }).2.2 = some 0 := by
    norm_num [jsHandleSlice, FRUIT_COUNT, sampleState, sampleRects, sliceHit,
      segIntersectsRect, segIntersect, spawnHalves, sliceLoop]
  ⟨hres, by decide, rfl,
    slice_incorrect_last_life 150 (-50) 150 50 sampleRects 9
      { sampleState with lives := 1 } 0 hres (by decide) rfl⟩

/-- Counterexample for C3 as stated: at this concrete playing state with
one life, slicing the incorrect bubble does set game-over, yet the
next-wave advance IS scheduled (`.2.1 = true`), contradicting the claim
that no advance is scheduled. -/
theorem slice_incorrect_cex :
    ({ sampleState with lives := 1 } : GameState).gameOver = false ∧
    ({ sampleState with lives := 1 } : GameState).lives = 1 ∧
    (jsHandleSlice 150 (-50) 150 50 sampleRects 9
        { sampleState with lives := 1 }).2.2 = some 0 ∧
    ¬(((0 : ℕ) : ℤ) = ({ sampleState with lives := 1 } : GameState).correctIdx) ∧
    (jsHandleSlice 150 (-50) 150 50 sampleRects 9
        { sampleState with lives := 1 }).1.gameOver = true ∧
    (jsHandleSlice 150 (-50) 150 50 sampleRects 9
        { sampleState with lives := 1 }).2.1 = true := by
  refine ⟨rfl, rfl, ?_, by decide, ?_, ?_⟩ <;>
    norm_num [jsHandleSlice, FRUIT_COUNT, sampleState, sampleRects, sliceHit,
      segIntersectsRect, segIntersect, spawnHalves, sliceLoop]

/-! ## Off-screen event emission (C6) -/

/-- Once the `fell` latch is set, a bubble tick neither emits nor clears it. -/
theorem bubbleTick_no_refire (height : ℚ) (b : BubbleSim) (h : b.fell = true) :
    (bubbleTick height b).2 = false ∧ (bubbleTick height b).1.fell = true := by
  unfold bubbleTick
  by_cases hh : b.hidden = true
  · rw [if_pos hh]
    exact ⟨rfl, h⟩
  · rw [if_neg hh]
    dsimp only
    rw [if_neg (fun hc => by simp [h] at hc)]
    exact ⟨rfl, h⟩

/-- A bubble tick that emits the fall event sets the latch. -/
theorem bubbleTick_emit_fell (height : ℚ) (b : BubbleSim)
    (h : (bubbleTick height b).2 = true) :
    (bubbleTick height b).1.fell = true := by
  unfold bubbleTick at h ⊢
  by_cases hh : b.hidden = true
  · rw [if_pos hh] at h
    exact absurd h (by simp)
  · rw [if_neg hh] at h ⊢
    dsimp only at h ⊢
    by_cases hc : b.fell = false ∧ b.y + b.vy > height + 120
    · rw [if_pos hc]
    · rw [if_neg hc] at h
      exact absurd h (by simp)

/-- A latched bubble never emits again over any number of ticks. -/
theorem bubbleRun_zero_of_fell (height : ℚ) :
    ∀ (n : ℕ) (b : BubbleSim), b.fell = true → bubbleRun height b n = 0 := by
  intro n
  induction n with
  | zero => intro b _; rfl
  | succ m ih =>
      intro b h
      obtain ⟨hemit, hfell⟩ := bubbleTick_no_refire height b h
      unfold bubbleRun
      dsimp only
      rw [hemit, ih _ hfell]
      simp

/-- Over any run of ticks a bubble emits its fall event at most once. -/
theorem bubbleRun_le_one (height : ℚ) :
    ∀ (n : ℕ) (b : BubbleSim), bubbleRun height b n ≤ 1 := by
  intro n
  induction n with
  | zero => intro b; exact Nat.zero_le 1
  | succ m ih =>
      intro b
      unfold bubbleRun
      dsimp only
      by_cases he : (bubbleTick height b).2 = true
      · rw [he]
        have hf := bubbleTick_emit_fell height b he
        rw [bubbleRun_zero_of_fell height m _ hf]
        simp
      · have he' : (bubbleTick height b).2 = false := by simpa using he
        rw [he']
        simpa using ih (bubbleTick height b).1

/-- Claim C6 (amended): a bubble's fall event is emitted at most once over
any tick sequence — the `fell` latch, once set, suppresses and survives
every later tick — but a fragment's done event has no latch in the source:
`halfTick` reports it afresh on every tick whose updated `y` exceeds
`screenHeight + 200`, so it can re-fire on consecutive ticks. -/
theorem offscreen_event_emission (height : ℚ) :
    (∀ (b : BubbleSim) (n : ℕ), bubbleRun height b n ≤ 1) ∧
    (∀ b : BubbleSim, b.fell = true →
      (bubbleTick height b).2 = false ∧ (bubbleTick height b).1.fell = true) ∧
    (∀ h : HalfSim, (halfTick height h).2 = decide (h.y + h.vy > height + 200)) :=
  ⟨fun b n => bubbleRun_le_one height n b,
   fun b h => bubbleTick_no_refire height b h,
   fun _ => rfl⟩

/-- Witness for C6 (amended) at concrete entities. -/
theorem offscreen_event_emission_witness :
    bubbleRun 100 ⟨500, 0, false, false⟩ 5 ≤ 1 ∧
    ((⟨500, 0, true, false⟩ : BubbleSim).fell = true ∧
      (bubbleTick 100 ⟨500, 0, true, false⟩).2 = false ∧
      (bubbleTick 100 ⟨500, 0, true, false⟩).1.fell = true) ∧
    (halfTick 100 ⟨0, 400, 0, 0, 0⟩).2 =
      decide ((⟨0, 400, 0, 0, 0⟩ : HalfSim).y + (⟨0, 400, 0, 0, 0⟩ : HalfSim).vy >
        100 + 200) :=
  ⟨(offscreen_event_emission 100).1 ⟨500, 0, false, false⟩ 5,
   ⟨rfl, (offscreen_event_emission 100).2.1 ⟨500, 0, true, false⟩ rfl⟩,
   (offscreen_event_emission 100).2.2 ⟨0, 400, 0, 0, 0⟩⟩

/-- Counterexample for C6 as stated: this concrete fragment is already far
below the threshold, and two consecutive ticks BOTH emit the done event —
the source keeps no `done` flag, so the event is not idempotent at the
simulator level (in the app the re-fire is only prevented by unmounting). -/
theorem half_done_refires_cex :
    (halfTick 100 ⟨0, 400, 0, 0, 0⟩).2 = true ∧
    (halfTick 100 (halfTick 100 ⟨0, 400, 0, 0, 0⟩).1).2 = true := by
  constructor <;> norm_num [halfTick, GRAVITY]

/-! ## Geometry facts (C8) -/

/-- Soundness of `segIntersect`: a reported intersection exhibits a common
point of the two (closed) segments in parametric form. -/
theorem segIntersect_sound (x1 y1 x2 y2 x3 y3 x4 y4 : ℚ)
    (hseg : segIntersect x1 y1 x2 y2 x3 y3 x4 y4 = true) :
    ∃ t u : ℚ, 0 ≤ t ∧ t ≤ 1 ∧ 0 ≤ u ∧ u ≤ 1 ∧
      x1 + t * (x2 - x1) = x3 + u * (x4 - x3) ∧
      y1 + t * (y2 - y1) = y3 + u * (y4 - y3) := by
  unfold segIntersect at hseg
  by_cases hd : (x1 - x2) * (y3 - y4) - (y1 - y2) * (x3 - x4) = 0
  · rw [if_pos hd] at hseg
    exact absurd hseg (by simp)
  · rw [if_neg hd] at hseg
    rw [decide_eq_true_eq] at hseg
    obtain ⟨ht0, ht1, hu0, hu1⟩ := hseg
    refine ⟨_, _, ht0, ht1, hu0, hu1, ?_, ?_⟩
    · field_simp
      ring
    · field_simp
      ring

/-- The linear interpolation of two values strictly above `v` never equals
`v` for a parameter in `[0,1]`. -/
theorem no_interior_solution (a b v t : ℚ) (ht0 : 0 ≤ t) (ht1 : t ≤ 1)
    (ha : v < a) (hb : v < b) (he : a + t * (b - a) = v) : False := by
  have hsum : (1 - t) * (a - v) + t * (b - v) = 0 := by linear_combination he
  have hP1nn : 0 ≤ (1 - t) * (a - v) := mul_nonneg (by linarith) (by linarith)
  have hP2nn : 0 ≤ t * (b - v) := mul_nonneg ht0 (by linarith)
  have hP1 : (1 - t) * (a - v) = 0 := by linarith
  rcases mul_eq_zero.1 hP1 with h | h
  · have ht : t = 1 := by linarith
    have hP2 : t * (b - v) = 0 := by linarith
    rw [ht, one_mul] at hP2
    linarith
  · linarith

/-- A segment lying entirely outside the closed rectangle is never
reported as a hit (the rectangle's extents must be non-negative for its
edges to lie inside its closed point set). -/
theorem segIntersectsRect_outside (x1 y1 x2 y2 rx ry rw rh : ℚ)
    (hw : 0 ≤ rw) (hh : 0 ≤ rh)
    (hout : ∀ t : ℚ, 0 ≤ t → t ≤ 1 →
      ¬ inRect (x1 + t * (x2 - x1)) (y1 + t * (y2 - y1)) rx ry rw rh) :
    segIntersectsRect x1 y1 x2 y2 rx ry rw rh = false := by
  by_contra hT
  have hT' : segIntersectsRect x1 y1 x2 y2 rx ry rw rh = true := by
    simpa using hT
  unfold segIntersectsRect at hT'
  simp only [Bool.or_eq_true] at hT'
  rcases hT' with ((h | h) | h) | h
  · obtain ⟨t, u, ht0, ht1, hu0, hu1, hx, hy⟩ :=
      segIntersect_sound _ _ _ _ _ _ _ _ h
    have hx' : x1 + t * (x2 - x1) = rx + u * rw := by linear_combination hx
    have hy' : y1 + t * (y2 - y1) = ry := by linear_combination hy
    refine hout t ht0 ht1 ⟨?_, ?_, ?_, ?_⟩ <;>
      nlinarith [mul_nonneg hu0 hw, mul_nonneg (by linarith : (0:ℚ) ≤ 1 - u) hw]
  · obtain ⟨t, u, ht0, ht1, hu0, hu1, hx, hy⟩ :=
      segIntersect_sound _ _ _ _ _ _ _ _ h
    have hx' : x1 + t * (x2 - x1) = rx + rw := by linear_combination hx
    have hy' : y1 + t * (y2 - y1) = ry + u * rh := by linear_combination hy
    refine hout t ht0 ht1 ⟨?_, ?_, ?_, ?_⟩ <;>
      nlinarith [mul_nonneg hu0 hh, mul_nonneg (by linarith : (0:ℚ) ≤ 1 - u) hh]
  · obtain ⟨t, u, ht0, ht1, hu0, hu1, hx, hy⟩ :=
      segIntersect_sound _ _ _ _ _ _ _ _ h
    have hx' : x1 + t * (x2 - x1) = rx + rw + u * (-rw) := by linear_combination hx
    have hy' : y1 + t * (y2 - y1) = ry + rh := by linear_combination hy
    refine hout t ht0 ht1 ⟨?_, ?_, ?_, ?_⟩ <;>
      nlinarith [mul_nonneg hu0 hw, mul_nonneg (by linarith : (0:ℚ) ≤ 1 - u) hw]
  · obtain ⟨t, u, ht0, ht1, hu0, hu1, hx, hy⟩ :=
      segIntersect_sound _ _ _ _ _ _ _ _ h
    have hx' : x1 + t * (x2 - x1) = rx := by linear_combination hx
    have hy' : y1 + t * (y2 - y1) = ry + rh + u * (-rh) := by linear_combination hy
    refine hout t ht0 ht1 ⟨?_, ?_, ?_, ?_⟩ <;>
      nlinarith [mul_nonneg hu0 hh, mul_nonneg (by linarith : (0:ℚ) ≤ 1 - u) hh]

/-- A segment whose two endpoints lie strictly inside the rectangle is NOT
reported as a hit: `segIntersectsRect` only detects edge crossings. -/
theorem segIntersectsRect_strict_inside (x1 y1 x2 y2 rx ry rw rh : ℚ)
    (hin1 : strictInRect x1 y1 rx ry rw rh)
    (hin2 : strictInRect x2 y2 rx ry rw rh) :
    segIntersectsRect x1 y1 x2 y2 rx ry rw rh = false := by
  obtain ⟨ha1, hb1, hc1, hd1⟩ := hin1
  obtain ⟨ha2, hb2, hc2, hd2⟩ := hin2
  by_contra hT
  have hT' : segIntersectsRect x1 y1 x2 y2 rx ry rw rh = true := by
    simpa using hT
  unfold segIntersectsRect at hT'
  simp only [Bool.or_eq_true] at hT'
  rcases hT' with ((h | h) | h) | h
  · obtain ⟨t, u, ht0, ht1, _, _, _, hy⟩ :=
      segIntersect_sound _ _ _ _ _ _ _ _ h
    exact no_interior_solution y1 y2 ry t ht0 ht1 hc1 hc2
      (by linear_combination hy)
  · obtain ⟨t, u, ht0, ht1, _, _, hx, _⟩ :=
      segIntersect_sound _ _ _ _ _ _ _ _ h
    exact no_interior_solution (-x1) (-x2) (-(rx + rw)) t ht0 ht1
      (by linarith) (by linarith) (by linear_combination -hx)
  · obtain ⟨t, u, ht0, ht1, _, _, _, hy⟩ :=
      segIntersect_sound _ _ _ _ _ _ _ _ h
    exact no_interior_solution (-y1) (-y2) (-(ry + rh)) t ht0 ht1
      (by linarith) (by linarith) (by linear_combination -hy)
  · obtain ⟨t, u, ht0, ht1, _, _, hx, _⟩ :=
      segIntersect_sound _ _ _ _ _ _ _ _ h
    exact no_interior_solution x1 x2 rx t ht0 ht1 ha1 ha2
      (by linear_combination hx)

/-- Claim C8 (amended): a segment fully outside the (padding-expanded)
closed rectangle never reports a hit; but a segment passing through the
interior with BOTH endpoints strictly inside also reports NO hit — the
detector only sees edge crossings (original claim asserted a hit there). -/
theorem seg_rect_hit_characterization :
    (∀ x1 y1 x2 y2 rx ry rw rh : ℚ, 0 ≤ rw → 0 ≤ rh →
      (∀ t : ℚ, 0 ≤ t → t ≤ 1 →
        ¬ inRect (x1 + t * (x2 - x1)) (y1 + t * (y2 - y1)) rx ry rw rh) →
      segIntersectsRect x1 y1 x2 y2 rx ry rw rh = false) ∧
    (∀ x1 y1 x2 y2 rx ry rw rh : ℚ,
      strictInRect x1 y1 rx ry rw rh → strictInRect x2 y2 rx ry rw rh →
      segIntersectsRect x1 y1 x2 y2 rx ry rw rh = false) :=
  ⟨segIntersectsRect_outside, segIntersectsRect_strict_inside⟩

/-- Witness for C8 (amended): a concrete fully-outside segment reports no
hit, and a concrete fully-interior segment also reports no hit. -/
theorem seg_rect_hit_characterization_witness :
    ((0:ℚ) ≤ 10 ∧ (0:ℚ) ≤ 10 ∧
      segIntersectsRect 20 20 30 30 0 0 10 10 = false) ∧
    (strictInRect 4 4 0 0 10 10 ∧ strictInRect 6 6 0 0 10 10 ∧
      segIntersectsRect 4 4 6 6 0 0 10 10 = false) :=
  ⟨⟨by norm_num, by norm_num,
    seg_rect_hit_characterization.1 20 20 30 30 0 0 10 10 (by norm_num)
      (by norm_num)
      (fun t ht0 ht1 hin => by
        obtain ⟨_, hin2, _, _⟩ := hin
        nlinarith)⟩,
   ⟨by norm_num [strictInRect], by norm_num [strictInRect],
    seg_rect_hit_characterization.2 4 4 6 6 0 0 10 10
      (by norm_num [strictInRect]) (by norm_num [strictInRect])⟩⟩

/-- Counterexample for C8 as stated: the segment from `(4,4)` to `(6,6)`
has both endpoints strictly inside the rectangle `(0,0,10,10)` — it passes
through the interior — yet `segIntersectsRect` reports no hit. -/
theorem seg_rect_interior_cex :
    strictInRect 4 4 0 0 10 10 ∧ strictInRect 6 6 0 0 10 10 ∧
    segIntersectsRect 4 4 6 6 0 0 10 10 = false := by
  refine ⟨by norm_num [strictInRect], by norm_num [strictInRect], ?_⟩
  norm_num [segIntersectsRect, segIntersect]

/-! ## Wave-generation facts (C1) -/

/-- Unfolding of one iteration of the pool loop. -/
theorem poolLoop_succ (correct : ℤ) (rand : ℕ → ℕ) (fuel k : ℕ) (pool : List ℤ) :
    poolLoop correct rand (fuel + 1) k pool =
      if pool.length ≥ FRUIT_COUNT then some (pool, k)
      else
        let delta : ℤ := (rand k % 5 : ℕ) - 2
        let candidate := correct + delta + (if delta = 0 then 1 else 0)
        let pool' := if candidate ∈ pool then pool else pool ++ [candidate]
        poolLoop correct rand fuel (k + 1) pool' := rfl

/-- Invariant of the candidate-pool loop: starting from a duplicate-free
pool holding the correct answer exactly once, a successful run returns a
duplicate-free pool of exactly `FRUIT_COUNT` values still holding the
correct answer exactly once. -/
theorem poolLoop_spec (correct : ℤ) (rand : ℕ → ℕ) :
    ∀ (fuel k : ℕ) (pool : List ℤ),
      pool.Nodup → pool.count correct = 1 → pool.length ≤ FRUIT_COUNT →
      ∀ res k', poolLoop correct rand fuel k pool = some (res, k') →
        res.Nodup ∧ res.count correct = 1 ∧ res.length = FRUIT_COUNT := by
  intro fuel
  induction fuel with
  | zero =>
      intro k pool _ _ _ res k' h
      exact absurd h (by simp [poolLoop])
  | succ n ih =>
      intro k pool hnd hcnt hlen res k' h
      rw [poolLoop_succ] at h
      by_cases hge : pool.length ≥ FRUIT_COUNT
      · rw [if_pos hge] at h
        have hpk : pool = res ∧ k = k' := by
          simpa [Prod.ext_iff] using h
        obtain ⟨rfl, rfl⟩ := hpk
        exact ⟨hnd, hcnt, by omega⟩
      · rw [if_neg hge] at h
        dsimp only at h
        set delta : ℤ := ((rand k % 5 : ℕ) : ℤ) - 2 with hdelta
        have hcand : correct + delta + (if delta = 0 then 1 else 0) ≠ correct := by
          by_cases h0 : delta = 0
          · rw [if_pos h0, h0]
            omega
          · rw [if_neg h0]
            omega
        by_cases hmem : correct + delta + (if delta = 0 then 1 else 0) ∈ pool
        · rw [if_pos hmem] at h
          exact ih (k + 1) pool hnd hcnt (by omega) res k' h
        · rw [if_neg hmem] at h
          refine ih (k + 1) _ ?_ ?_ ?_ res k' h
          · exact List.nodup_append.2 ⟨hnd, List.nodup_singleton _,
              by simp [List.disjoint_singleton]; exact fun hm => hmem hm⟩
          · rw [List.count_append]
            simp [List.count_singleton, hcand, hcnt]
          · simp only [List.length_append, List.length_singleton]
            omega

/-- The six concrete outcomes of one destructuring swap on a 3-list. -/
theorem listSwap_20 (a b c : ℤ) : listSwap [a, b, c] 2 0 = [c, b, a] := by
  simp [listSwap]

/-- Swap of slots 2 and 1. -/
theorem listSwap_21 (a b c : ℤ) : listSwap [a, b, c] 2 1 = [a, c, b] := by
  simp [listSwap]

/-- Swap of slot 2 with itself. -/
theorem listSwap_22 (a b c : ℤ) : listSwap [a, b, c] 2 2 = [a, b, c] := by
  simp [listSwap]

/-- Swap of slots 1 and 0. -/
theorem listSwap_10 (a b c : ℤ) : listSwap [a, b, c] 1 0 = [b, a, c] := by
  simp [listSwap]

/-- Swap of slot 1 with itself. -/
theorem listSwap_11 (a b c : ℤ) : listSwap [a, b, c] 1 1 = [a, b, c] := by
  simp [listSwap]

/-- The Fisher–Yates pass over a 3-element list is a permutation, whatever
the random draws. -/
theorem shuffle_three_perm (rand : ℕ → ℕ) (k : ℕ) (p0 p1 p2 : ℤ) :
    (shuffleLoop rand k [p0, p1, p2] 2).Perm [p0, p1, p2] := by
  have e : shuffleLoop rand k [p0, p1, p2] 2 =
      listSwap (listSwap [p0, p1, p2] 2 (rand k % 3)) 1 (rand (k + 1) % 2) := rfl
  rw [e]
  have h3 : rand k % 3 = 0 ∨ rand k % 3 = 1 ∨ rand k % 3 = 2 := by omega
  have h2 : rand (k + 1) % 2 = 0 ∨ rand (k + 1) % 2 = 1 := by omega
  rcases h3 with h3 | h3 | h3 <;> rcases h2 with h2 | h2 <;> rw [h3, h2] <;>
    simp only [listSwap_20, listSwap_21, listSwap_22, listSwap_10, listSwap_11] <;>
    first
      | exact List.Perm.refl _
      | exact List.Perm.swap p0 p1 [p2]
      | exact List.Perm.cons p0 (List.Perm.swap p1 p2 [])
      | exact (List.Perm.swap p1 p2 [p0]).trans
          ((List.Perm.cons p1 (List.Perm.swap p0 p2 [])).trans
            (List.Perm.swap p0 p1 [p2]))
      | exact (List.Perm.cons p1 (List.Perm.swap p0 p2 [])).trans
          (List.Perm.swap p0 p1 [p2])
      | exact (List.Perm.swap p0 p2 [p1]).trans
          (List.Perm.cons p0 (List.Perm.swap p1 p2 []))

/-- Claim C1: every wave the generator produces carries exactly
`FRUIT_COUNT = 3` pairwise-distinct candidate answers, exactly one of
which equals `operandA + operandB`, and `correctIdx` is the position of
that value in the shuffled sequence. -/
theorem buildWave_valid (rand : ℕ → ℕ) (fuel : ℕ) (w : Wave)
    (h : buildWave rand fuel = some w) :
    w.answers.length = FRUIT_COUNT ∧ w.answers.Nodup ∧
    w.answers.count (w.a + w.b) = 1 ∧
    ∃ p : ℕ, w.correctIdx = (p : ℤ) ∧ p < FRUIT_COUNT ∧
      w.answers.getD p 0 = w.a + w.b := by
  unfold buildWave at h
  dsimp only at h
  set a : ℤ := ((rand 0 % 10 : ℕ) : ℤ) with ha
  set b : ℤ := ((rand 1 % 10 : ℕ) : ℤ) with hb
  rcases hp : poolLoop (a + b) rand fuel 2 [a + b] with _ | ⟨pool, k⟩
  · rw [hp] at h
    exact absurd h (by simp)
  · rw [hp] at h
    obtain rfl := (Option.some.inj h).symm
    dsimp only
    have hpool := poolLoop_spec (a + b) rand fuel 2 [a + b]
      (List.nodup_singleton _) (by simp) (by norm_num [FRUIT_COUNT])
      pool k hp
    obtain ⟨hnd, hcnt, hlen⟩ := hpool
    obtain ⟨p0, p1, p2, rfl⟩ := List.length_eq_three.1 (hlen : _ = 3)
    have hperm : (shuffleLoop rand k [p0, p1, p2]
        ([p0, p1, p2].length - 1)).Perm [p0, p1, p2] :=
      shuffle_three_perm rand k p0 p1 p2
    set arr := shuffleLoop rand k [p0, p1, p2] ([p0, p1, p2].length - 1)
      with harr
    have hlen' : arr.length = FRUIT_COUNT := by
      rw [hperm.length_eq]
      exact hlen
    have hnd' : arr.Nodup := hperm.nodup_iff.2 hnd
    have hcnt' : arr.count (a + b) = 1 := by
      rw [hperm.count_eq]
      exact hcnt
    have hmem : (a + b) ∈ arr := by
      by_contra hm
      rw [List.count_eq_zero.2 hm] at hcnt'
      exact absurd hcnt' (by norm_num)
    have hlt : List.indexOf (a + b) arr < arr.length :=
      List.indexOf_lt_length.2 hmem
    refine ⟨hlen', hnd', hcnt', List.indexOf (a + b) arr, ?_, by omega, ?_⟩
    · unfold jsIndexOf
      rw [if_pos hmem]
    · rw [List.getD_eq_getElem?_getD, List.getElem?_eq_getElem hlt]
      simp [List.getElem_indexOf]

/-- Witness for C1 at the identity random stream with fuel 5. -/
theorem buildWave_valid_witness :
    buildWave (fun n => n) 5 = some sampleBuiltWave ∧
    (sampleBuiltWave.answers.length = FRUIT_COUNT ∧
      sampleBuiltWave.answers.Nodup ∧
      sampleBuiltWave.answers.count (sampleBuiltWave.a + sampleBuiltWave.b) = 1 ∧
      ∃ p : ℕ, sampleBuiltWave.correctIdx = (p : ℤ) ∧ p < FRUIT_COUNT ∧
        sampleBuiltWave.answers.getD p 0 = sampleBuiltWave.a + sampleBuiltWave.b) :=
  ⟨rfl, buildWave_valid (fun n => n) 5 sampleBuiltWave rfl⟩

/-! ## Session invariant (C5) -/

/-- Building a wave leaves score, lives and the game-over flag alone. -/
theorem applyBuildWave_inv (s : GameState) (w : Wave) (h : SessionInv s) :
    SessionInv (applyBuildWave s w) := h

/-- The `sliceHit` update preserves the session invariant. -/
theorem sliceHit_inv (s : GameState) (i : ℕ) (x y w h : ℚ) (idBase : ℤ)
    (hinv : SessionInv s) : SessionInv (sliceHit s i x y w h idBase) := by
  obtain ⟨h1, h2, h3⟩ := hinv
  have hsc : (0 : ℤ) ≤ s.score + 1 := by omega
  unfold sliceHit SessionInv
  dsimp only
  by_cases hc : (i : ℤ) = s.correctIdx
  · rw [if_pos hc]
    exact ⟨hsc, h2, h3⟩
  · rw [if_neg hc]
    by_cases hl : s.lives - 1 ≤ 0
    · rw [if_pos hl]
      exact ⟨h1, le_refl 0, fun _ => rfl⟩
    · have hpos : (0 : ℤ) ≤ s.lives - 1 := by omega
      have hnz : ¬(s.lives - 1 = 0) := by omega
      rw [if_neg hl]
      exact ⟨h1, hpos, fun h0 => absurd h0 hnz⟩

/-- The state produced by the slice call is either unchanged or a
`sliceHit` applied to a non-game-over state. -/
theorem jsHandleSlice_state_cases (x1 y1 x2 y2 : ℚ) (rects : ℕ → RectOutcome)
    (idBase : ℤ) (s : GameState) :
    (jsHandleSlice x1 y1 x2 y2 rects idBase s).1 = s ∨
    ∃ c x y w h, (jsHandleSlice x1 y1 x2 y2 rects idBase s).1 =
      sliceHit s c x y w h idBase := by
  unfold jsHandleSlice
  by_cases hg : s.gameOver = true
  · rw [if_pos hg]
    exact Or.inl rfl
  · rw [if_neg hg]
    rcases sliceLoop_spec x1 y1 x2 y2 rects idBase s FRUIT_COUNT 0 with
      ⟨heq, _⟩ | ⟨c, x, y, w, h, _, _, _, _, _, _, heq⟩
    · rw [heq]
      exact Or.inl rfl
    · rw [heq]
      exact Or.inr ⟨c, x, y, w, h, rfl⟩

/-- The fall handler preserves the session invariant. -/
theorem handleFruitFall_inv (s : GameState) (hinv : SessionInv s) :
    SessionInv (handleFruitFall s).1 := by
  obtain ⟨h1, h2, h3⟩ := hinv
  unfold handleFruitFall SessionInv
  dsimp only
  by_cases hc : s.fallenCount + 1 ≥ FRUIT_COUNT ∧ s.gameOver = false
  · rw [if_pos hc]
    by_cases hl : s.lives - 1 ≤ 0
    · rw [if_pos hl]
      exact ⟨h1, le_refl 0, fun _ => rfl⟩
    · have hpos : (0 : ℤ) ≤ s.lives - 1 := by omega
      have hnz : ¬(s.lives - 1 = 0) := by omega
      rw [if_neg hl]
      exact ⟨h1, hpos, fun h0 => absurd h0 hnz⟩
  · rw [if_neg hc]
    exact ⟨h1, h2, h3⟩

/-- Every step of the session controller preserves the invariant. -/
theorem step_inv {s s' : GameState} (hstep : Step s s') (hinv : SessionInv s) :
    SessionInv s' := by
  cases hstep with
  | slice x1 y1 x2 y2 rects idBase s =>
      rcases jsHandleSlice_state_cases x1 y1 x2 y2 rects idBase s with
        he | ⟨c, x, y, w, h, he⟩
      · rw [he]
        exact hinv
      · rw [he]
        exact sliceHit_inv s c x y w h idBase hinv
  | fall s => exact handleFruitFall_inv s hinv
  | advance s w => exact applyBuildWave_inv _ w hinv
  | restartStep s w =>
      exact applyBuildWave_inv _ w ⟨le_refl 0, by norm_num, by norm_num⟩
  | halfDone s id => exact hinv

/-- Claim C5: in every reachable session state, score and lives are
non-negative and zero lives forces the game-over flag; moreover in any
game-over state a slice event is a complete no-op (state unchanged, no
timeout scheduled, no slot reported) until restart. -/
theorem session_invariant (s : GameState) (hs : Reachable s) :
    0 ≤ s.score ∧ 0 ≤ s.lives ∧ (s.lives = 0 → s.gameOver = true) ∧
    (s.gameOver = true → ∀ (x1 y1 x2 y2 : ℚ) (rects : ℕ → RectOutcome)
      (idBase : ℤ), jsHandleSlice x1 y1 x2 y2 rects idBase s = (s, false, none)) := by
  have hfreeze : ∀ (x1 y1 x2 y2 : ℚ) (rects : ℕ → RectOutcome) (idBase : ℤ),
      s.gameOver = true →
      jsHandleSlice x1 y1 x2 y2 rects idBase s = (s, false, none) := by
    intro x1 y1 x2 y2 rects idBase hg
    unfold jsHandleSlice
    rw [if_pos hg]
  suffices hinv : SessionInv s by
    exact ⟨hinv.1, hinv.2.1, hinv.2.2,
      fun hg x1 y1 x2 y2 rects idBase => hfreeze x1 y1 x2 y2 rects idBase hg⟩
  clear hfreeze
  induction hs with
  | init w =>
      exact applyBuildWave_inv _ w ⟨le_refl 0, by norm_num, by norm_num⟩
  | step hr hstep ih => exact step_inv hstep ih

/-- Witness for C5 at the freshly initialized state. -/
theorem session_invariant_witness :
    0 ≤ (initState sampleWave).score ∧ 0 ≤ (initState sampleWave).lives ∧
    ((initState sampleWave).lives = 0 → (initState sampleWave).gameOver = true) ∧
    ((initState sampleWave).gameOver = true →
      ∀ (x1 y1 x2 y2 : ℚ) (rects : ℕ → RectOutcome) (idBase : ℤ),
        jsHandleSlice x1 y1 x2 y2 rects idBase (initState sampleWave) =
          (initState sampleWave, false, none)) :=
  session_invariant (initState sampleWave) (Reachable.init sampleWave)

end MathNinja
